import Mathlib

/-!
# Verification of the qdrant-tools consistency-test harness

Shallow embedding, in Lean 4, of the pure algorithmic content of the
`sweep-points`, `payload-counters` and `point-consistency-test` binaries of the
repository, together with proofs about the embedded definitions.

Remote calls (scroll/get/upsert/cluster-info) are modelled as environment
functions handed to each definition: the environment supplies the data the
store would have returned, mutation success/failure per attempt, and the
random draws the code takes from `thread_rng`.  A Rust `panic!`/`unwrap`
failure is modelled as the `panicked` outcome; `Result::Err` as `err`.
Time is logical: only explicit `sleep` calls advance the clock, and sleeps
are recorded as trace events where a claim depends on them.
-/

set_option maxRecDepth 40000

/-- Outcome of running a fallible Rust code path: `ok` for normal return,
`err` for a returned `Result::Err`, `panicked` for a Rust panic
(`panic!`, `unwrap` on `None`/`Err`, or a failed `debug_assert!`). -/
inductive RunResult (ε α : Type) where
  | ok (value : α)
  | err (error : ε)
  | panicked (message : String)
deriving Repr, DecidableEq

namespace SweepPoints

/-! ## Constants of `src/tests/sweep-points/src/main.rs` (lines 17-49) -/

/-- Embeds `POINT_COUNT: u64 = 200` -/
def POINT_COUNT : Nat := 200

/-- Embeds `BATCH_SIZE: usize = 25` -/
def BATCH_SIZE : Nat := 25

/-- Embeds `UPDATE_RETRIES: u32 = 100` -/
def UPDATE_RETRIES : Nat := 100

/-- Embeds `UPDATE_RETRY_INTERVAL: Duration = Duration::from_millis(50)`, in ms. -/
def UPDATE_RETRY_INTERVAL_MS : Nat := 50

/-- Embeds `CHECK_RETRIES: usize = 25` -/
def CHECK_RETRIES : Nat := 25

/-- Embeds `COLLECTION_POLL_INTERVAL: Duration = Duration::from_millis(50)`, in ms. -/
def COLLECTION_POLL_INTERVAL_MS : Nat := 50

/-- Embeds `COLLECTION_POLL_MAX: Duration = Duration::from_secs(120)`, in ms. -/
def COLLECTION_POLL_MAX_MS : Nat := 120000

/-- Embeds `HOSTS.len()`: three nodes are configured. -/
def HOSTS_LEN : Nat := 3

/-! ## `format_ranges` (main.rs lines 381-409) -/

/-- Rust's `Debug` rendering of `Range<u64>`: `start..end`. -/
def range_repr (s e : Nat) : String := toString s ++ ".." ++ toString e

/-- The loop body of `format_ranges`: walks the id list keeping the open
range `Option<(start, end)>` and the closed ranges accumulated so far
(accumulator kept in order). -/
def format_ranges_go : List Nat → Option (Nat × Nat) → List String → List String
  | [], none, acc => acc
  | [], some (s, e), acc => acc ++ [range_repr s e]
  | id :: rest, none, acc => format_ranges_go rest (some (id, id + 1)) acc
  | id :: rest, some (s, e), acc =>
      if e = id then
        format_ranges_go rest (some (s, id + 1)) acc
      else
        format_ranges_go rest (some (id, id + 1)) (acc ++ [range_repr s e])

/-- Embeds `format_ranges(ids: &[u64]) -> String` (lines 381-409): compresses a
sorted id list into comma-joined half-open ranges. -/
def format_ranges (ids : List Nat) : String :=
  String.intercalate "," (format_ranges_go ids none [])

/-! ## `check_points_on_peer` (main.rs lines 269-313) -/

/-- Embeds `ids.sort_unstable()` on the ids extracted from the scroll response. -/
def sortIds (ids : List Nat) : List Nat := List.insertionSort (· ≤ ·) ids

/-- Embeds `ids.windows(2).all(|w| w[0] < w[1])`: the body of the
`debug_assert!` at lines 294-297. -/
def strictlySorted : List Nat → Bool
  | [] => true
  | [_] => true
  | a :: b :: t => decide (a < b) && strictlySorted (b :: t)

/-- Embeds `[a, a+1, ..., a+n-1]`, used to express the expected id window. -/
def rangeFrom : Nat → Nat → List Nat
  | _, 0 => []
  | a, n + 1 => a :: rangeFrom (a + 1) n

/-- The expected id window `sweep_start..sweep_start + POINT_COUNT` as a list. -/
def windowList (sweep_start : Nat) : List Nat := rangeFrom sweep_start POINT_COUNT

/-- The body of `check_points_on_peer` once the scroll response's ids have
been extracted and sorted.  Mirrors, in order: the `ids.is_empty()` early
`Err` (lines 287-292); the `debug_assert!` on strict sortedness, modelled as
a panic when it fails (lines 294-297); the `min`/`max` reads and the
`wrong_lowest`/`wrong_highest`/`wrong_count` comparisons with the `Err`
message built with `format_ranges` (lines 299-310); `Ok(())` otherwise. -/
def check_sorted_ids (sweep_start : Nat) : List Nat → RunResult String Unit
  | [] =>
      .err ("expect " ++ range_repr sweep_start (sweep_start + POINT_COUNT) ++
        ", got zero points (len: 0 vs " ++ toString POINT_COUNT ++ ")")
  | first :: rest =>
      let ids := first :: rest
      if strictlySorted ids then
        if first ≠ sweep_start ∨ ids.getLastD 0 ≠ sweep_start + POINT_COUNT - 1 ∨
            ids.length ≠ POINT_COUNT then
          .err ("expect " ++ range_repr sweep_start (sweep_start + POINT_COUNT) ++
            ", got " ++ format_ranges ids ++ " (len: " ++ toString ids.length ++
            " vs " ++ toString POINT_COUNT ++ ")")
        else
          .ok ()
      else
        .panicked "point IDs contain duplicate or are not sorted"

/-- Embeds `check_points_on_peer(client, sweep_start)` (lines 269-313), with the
scroll response's numeric point ids passed in as `fetched`: the ids are
sorted with `sort_unstable` and then run through the emptiness, duplicate
and window checks of `check_sorted_ids`. -/
def check_points_on_peer (fetched : List Nat) (sweep_start : Nat) :
    RunResult String Unit :=
  check_sorted_ids sweep_start (sortIds fetched)

/-- Modelled from the spec: the claim's phrase "the list's distinct sorted
contents" — the fetched ids, sorted and with duplicates removed.  Used only
to compare the claim's wording against `check_points_on_peer`. -/
def specDistinctSorted (fetched : List Nat) : List Nat := (sortIds fetched).dedup

/-- Embeds `nonAdjacent ids`: no element of `ids` is immediately followed by its
numeric successor (`a + 1 ≠ b` for every consecutive pair `a, b`). -/
def nonAdjacent : List Nat → Bool
  | [] => true
  | [_] => true
  | a :: b :: t => decide (a + 1 ≠ b) && nonAdjacent (b :: t)

/-! ## `check_points` (main.rs lines 222-267)

One invocation of the checker's retry loop.  The environment is
`cycles : Nat → List (Option String)`: for check cycle `c` (0-based) and each
node in order, `none` means `check_points_on_peer` returned `Ok` for that
node in that cycle, and `some line` means it failed, `line` being the
formatted entry `"- {time} {host}: {err}"` the code pushes onto `errors`
(the timestamp and host rendering are part of the environment since the
wall-clock time is external).  The trace records, for each call of
`transfer_lock.lock().await` (line 258), the cycle index at which it
happened, and whether the guard was still held when the function returned. -/

/-- Result and observable locking behaviour of one `check_points` run
(the function returns `Result<(), String>`, so `panicked` is unused). -/
structure CheckTrace where
  result : RunResult String Unit
  lockEvents : List Nat
  heldAtReturn : Bool
deriving Repr, DecidableEq

/-- The `for retries_left in (0..attempts).rev()` loop of `check_points`
(lines 232-264).  `rem` is the number of iterations still to run (so inside
an iteration `retries_left = rem - 1`), `cycle` the 0-based index of the
current cycle, `errors` the `errors` vector carried across iterations,
`guard` the `transfer_lock_guard` option (holding the cycle index at which
the lock was taken), `events` the lock acquisitions so far in reverse
order.  When the iterations are exhausted the function returns
`Err(errors.join("\n"))` (line 266). -/
def check_points_go (cycles : Nat → List (Option String)) :
    Nat → Nat → List String → Option Nat → List Nat → CheckTrace
  | 0, _cycle, errors, guard, events =>
      { result := .err (String.intercalate "\n" errors)
        lockEvents := events.reverse
        heldAtReturn := guard.isSome }
  | rem + 1, cycle, _errors, guard, events =>
      let errors := (cycles cycle).filterMap id
      if errors.isEmpty then
        { result := .ok ()
          lockEvents := events.reverse
          heldAtReturn := guard.isSome }
      else
        match guard with
        | none => check_points_go cycles rem (cycle + 1) errors (some cycle) (cycle :: events)
        | some g => check_points_go cycles rem (cycle + 1) errors (some g) events

/-- Embeds `check_points(clients, sweep_start, attempts, transfer_lock)`
(lines 222-267): runs up to `attempts` check cycles; per cycle it clears
`errors`, checks every node, returns `Ok` if no node failed, otherwise
acquires the transfer lock if this is the first failing cycle
(`transfer_lock_guard.is_none()`), sleeps, and retries. -/
def check_points (attempts : Nat) (cycles : Nat → List (Option String)) : CheckTrace :=
  check_points_go cycles attempts 0 [] none []

/-- Whether a cycle's per-node outcomes contain at least one failure. -/
def cycleFails (outcomes : List (Option String)) : Bool :=
  !(outcomes.filterMap id).isEmpty

/-! ## Per-batch mutation retry loop of `sweep_points` (main.rs lines
146-164 and 186-199)

The delete loop and the upsert loop have the identical retry structure:
`for retries_left in (0..UPDATE_RETRIES).rev() { attempt; Ok => break;
Err if retries_left > 0 => sleep(UPDATE_RETRY_INTERVAL); Err => panic }`.
`results i` tells whether the `i`-th attempt (0-based) of the remote call
succeeds. -/

/-- Events observable from one batch's retry loop: a remote mutation
attempt (0-based index), or a sleep of the given number of milliseconds. -/
inductive RetryEv where
  | attempt (index : Nat)
  | sleep (ms : Nat)
deriving Repr, DecidableEq

/-- The retry loop with `rem` iterations left (`retries_left = rem - 1`
inside the iteration) and `i` the index of the next attempt.  Returns the
outcome together with the list of events in order. -/
def retry_go (results : Nat → Bool) : Nat → Nat → RunResult String Unit × List RetryEv
  | 0, _ => (.ok (), [])
  | rem + 1, i =>
      if results i then
        (.ok (), [.attempt i])
      else if rem > 0 then
        let rest := retry_go results rem (i + 1)
        (rest.1, .attempt i :: .sleep UPDATE_RETRY_INTERVAL_MS :: rest.2)
      else
        (.panicked "failed to update points", [.attempt i])

/-- One batch's mutation with retries, as performed by `sweep_points` for
each delete batch (lines 146-164) and each upsert batch (lines 186-199). -/
def update_with_retries (results : Nat → Bool) : RunResult String Unit × List RetryEv :=
  retry_go results UPDATE_RETRIES 0

/-! ## `wait_for_transfer_count` (main.rs lines 203-220)

Time is logical: the elapsed clock starts at 0 and advances only by the
`COLLECTION_POLL_INTERVAL` sleep after each unsuccessful poll, so the
`i`-th topology query (0-based) happens at elapsed time
`COLLECTION_POLL_INTERVAL_MS * i`, and the `start.elapsed() <= COLLECTION_POLL_MAX`
guard admits query `i` exactly when `50 * i ≤ 120000`, i.e. `i ≤ 2400`.
`responses i` is the `shard_transfers.len()` reported by the `i`-th query.
The fuel argument only bounds the recursion and is chosen larger than the
number of polls the elapsed-time guard can ever admit. -/

/-- Index of the last poll the elapsed-time guard admits. -/
def maxPollIndex : Nat := COLLECTION_POLL_MAX_MS / COLLECTION_POLL_INTERVAL_MS

/-- The polling loop: at poll `i`, if the elapsed time exceeds the bound,
panic with the timeout message; otherwise query, return normally when the
reported transfer count equals the target (the `ok` payload records how
many queries were made before returning), else sleep and continue. -/
def wftc_go (responses : Nat → Nat) (count : Nat) : Nat → Nat → RunResult String Nat
  | 0, _ => .panicked "Timeout waiting for transfer count"
  | fuel + 1, i =>
      if COLLECTION_POLL_INTERVAL_MS * i ≤ COLLECTION_POLL_MAX_MS then
        if responses i = count then .ok i
        else wftc_go responses count fuel (i + 1)
      else
        .panicked "Timeout waiting for transfer count"

/-- Embeds `wait_for_transfer_count(client, count)` (lines 203-220). -/
def wait_for_transfer_count (responses : Nat → Nat) (count : Nat) :
    RunResult String Nat :=
  wftc_go responses count (maxPollIndex + 2) 0

end SweepPoints

namespace PayloadCounters

/-! ## Constants of `src/tests/payload-counters/src/main.rs` (lines 17-55) -/

/-- Embeds `POINT_COUNT: u64 = 200` -/
def POINT_COUNT : Nat := 200

/-- Embeds `BATCH_SIZE: usize = 50` -/
def BATCH_SIZE : Nat := 50

/-- Embeds `UPDATE_RETRIES: u32 = 5` -/
def UPDATE_RETRIES : Nat := 5

/-- Embeds `UPDATE_RETRY_INTERVAL: Duration = Duration::from_millis(50)`, in ms. -/
def UPDATE_RETRY_INTERVAL_MS : Nat := 50

/-- Embeds `HOSTS.len()`: three nodes are configured. -/
def HOSTS_LEN : Nat := 3

/-- Embeds `POINT_COUNT / BATCH_SIZE = 4`; the chunks of `(0..POINT_COUNT)` by
`BATCH_SIZE` divide evenly, so every batch has exactly `BATCH_SIZE` ids. -/
def NUM_BATCHES : Nat := POINT_COUNT / BATCH_SIZE

/-- The ids of batch `b`: `(0..POINT_COUNT).chunks(BATCH_SIZE)` with the
exact division `200 = 4 * 50` gives `[b*50, ..., b*50 + 49]`. -/
def batchIds (b : Nat) : List Nat :=
  (List.range BATCH_SIZE).map (fun i => b * BATCH_SIZE + i)

/-- One point of a `get_points`/`scroll` response: its numeric id and its
`payload[COUNTER_KEY].as_integer()` (`none` when the payload lacks an
integer under `COUNTER_KEY`, which makes the Rust code's `.unwrap()`
panic). -/
structure FetchedPoint where
  id : Nat
  counter : Option Int
deriving Repr, DecidableEq

/-- The inner loop of `check_points` over one batch response
(lines 316-324): for each returned point in response order, unwrap its
counter (panicking when absent) and compare it with `expected`, returning
the mismatch `Err` for the first differing point. -/
def scanPoints (expected : Int) : List FetchedPoint → RunResult String Unit
  | [] => .ok ()
  | p :: rest =>
      match p.counter with
      | none => .panicked "called `Option::unwrap()` on a `None` value"
      | some num =>
          if num ≠ expected then
            .err ("PAYLOAD COUNTER MISMATCH: " ++ toString num ++ " != " ++
              toString expected ++ " (point " ++ toString p.id ++ ")")
          else
            scanPoints expected rest

/-- Embeds `check_points(client, expected)` (lines 293-328), with the node's
`get_points` response for batch `b` supplied as `responses b`
(`WAIT_GREEN` is `false`, so `wait_for_green` is skipped).  Batches are
checked in order; the first `Err` or panic aborts the remaining batches. -/
def check_points (responses : Nat → List FetchedPoint) (expected : Int) :
    RunResult String Unit :=
  (List.range NUM_BATCHES).foldl
    (fun acc b =>
      match acc with
      | .ok () => scanPoints expected (responses b)
      | other => other)
    (.ok ())

/-- The response points of all batches in the order `check_points` visits
them. -/
def allResponsePoints (responses : Nat → List FetchedPoint) : List FetchedPoint :=
  ((List.range NUM_BATCHES).map responses).flatten

/-- Modelled from the spec: the claim's "ID `i` has its counter payload
field equal to the expected value on that node", read off the node's
responses — the batch response covering `i` contains a point with id `i`
whose counter equals `expected`. -/
def specIdHasCounter (responses : Nat → List FetchedPoint) (i : Nat)
    (expected : Int) : Prop :=
  ∃ p ∈ responses (i / BATCH_SIZE), p.id = i ∧ p.counter = some expected

/-! ## `touch_points` (main.rs lines 158-253)

`SCROLL` and `SHUFFLE_POINTS` are both `false`, so the ids are visited in
order and each batch's current counters are read with `get_points`.  The
environment supplies: `rand b`, the value drawn from `thread_rng` for batch
`b` (the code draws exactly one node index per batch, at line 169);
`readResp b`, the `get_points` response for batch `b`; and `upsertOk b a`,
whether the `a`-th upsert attempt of batch `b` succeeds.  The trace records
the remote operations in order. -/

/-- Observable remote operations of `touch_points`. -/
inductive TouchEv where
  | read (node : Nat) (ids : List Nat)
  | upsertAttempt (node : Nat) (points : List (Nat × Int))
deriving Repr, DecidableEq

/-- The `HashMap` built from a batch response (lines 213-222): every
returned point's counter is unwrapped (a `none` counter is the code's
`.unwrap()` panic), and duplicate ids keep the last occurrence, as
`collect::<HashMap<_, _>>()` does. -/
def buildCounterMap (resp : List FetchedPoint) : Option (List (Nat × Int)) :=
  resp.foldl
    (fun acc p =>
      match acc, p.counter with
      | some m, some c => some (m ++ [(p.id, c)])
      | _, _ => none)
    (some [])

/-- Embeds `payload_values[id]`: HashMap indexing, last insertion wins; `none` is
the Rust panic on a missing key. -/
def mapIndex (m : List (Nat × Int)) (id : Nat) : Option Int :=
  (m.reverse.find? (fun q => q.1 = id)).map (fun q => q.2)

/-- The new points built for a batch (lines 225-236): each id of the batch
with counter `payload_values[id] + 1`; `none` when some id is missing from
the map (the indexing panic). -/
def bumpPoints (m : List (Nat × Int)) (ids : List Nat) :
    Option (List (Nat × Int)) :=
  ids.foldr
    (fun id acc =>
      match mapIndex m id, acc with
      | some c, some rest => some ((id, c + 1) :: rest)
      | _, _ => none)
    (some [])

/-- The upsert retry loop of `touch_points` (lines 238-251), identical in
shape to the sweep-points one: `UPDATE_RETRIES` iterations, sleep between
failed attempts, panic on exhaustion.  Returns the outcome and the upsert
attempts made (each recording the target node and points). -/
def upsert_retry_go (node : Nat) (pts : List (Nat × Int)) (ok : Nat → Bool) :
    Nat → Nat → RunResult String Unit × List TouchEv
  | 0, _ => (.ok (), [])
  | rem + 1, a =>
      if ok a then
        (.ok (), [.upsertAttempt node pts])
      else if rem > 0 then
        let rest := upsert_retry_go node pts ok rem (a + 1)
        (rest.1, .upsertAttempt node pts :: rest.2)
      else
        (.panicked "failed to upsert points", [.upsertAttempt node pts])

/-- One batch of `touch_points` (lines 168-252): draw the node index
(line 169, `thread_rng().gen_range(0..clients.len())`), read the batch's
points from that node, build the counter map, build the `+1` points, and
upsert them with retries **through the same node handle** (`client` is the
single variable bound at line 170). -/
def touch_batch (rand : Nat → Nat) (readResp : Nat → List FetchedPoint)
    (upsertOk : Nat → Nat → Bool) (b : Nat) :
    RunResult String Unit × List TouchEv :=
  let node := rand b % HOSTS_LEN
  let readEv := TouchEv.read node (batchIds b)
  match buildCounterMap (readResp b) with
  | none => (.panicked "called `Option::unwrap()` on a `None` value", [readEv])
  | some m =>
      match bumpPoints m (batchIds b) with
      | none => (.panicked "key not found", [readEv])
      | some pts =>
          let up := upsert_retry_go node pts (upsertOk b) UPDATE_RETRIES 0
          (up.1, readEv :: up.2)

/-- Embeds `touch_points(clients)` (lines 158-253): the batches in order, each
aborting the run on panic. -/
def touch_points_go (rand : Nat → Nat) (readResp : Nat → List FetchedPoint)
    (upsertOk : Nat → Nat → Bool) : List Nat →
    RunResult String Unit × List TouchEv
  | [] => (.ok (), [])
  | b :: rest =>
      let r := touch_batch rand readResp upsertOk b
      match r.1 with
      | .ok () =>
          let rec' := touch_points_go rand readResp upsertOk rest
          (rec'.1, r.2 ++ rec'.2)
      | other => (other, r.2)

/-- Embeds `touch_points(clients)` (lines 158-253) over the four batches. -/
def touch_points (rand : Nat → Nat) (readResp : Nat → List FetchedPoint)
    (upsertOk : Nat → Nat → Bool) : RunResult String Unit × List TouchEv :=
  touch_points_go rand readResp upsertOk (List.range NUM_BATCHES)

/-- Modelled from the spec: the claim's reading of the counter workload, in
which the upsert node is a second, independent random draw — batch `b`
reads via `rand (2*b) % 3` and upserts via `rand (2*b+1) % 3`.  Used only
to compare the claim's wording against `touch_points`. -/
def spec_touch_batch (rand : Nat → Nat) (readResp : Nat → List FetchedPoint)
    (upsertOk : Nat → Nat → Bool) (b : Nat) :
    RunResult String Unit × List TouchEv :=
  let readNode := rand (2 * b) % HOSTS_LEN
  let upsertNode := rand (2 * b + 1) % HOSTS_LEN
  let readEv := TouchEv.read readNode (batchIds b)
  match buildCounterMap (readResp b) with
  | none => (.panicked "called `Option::unwrap()` on a `None` value", [readEv])
  | some m =>
      match bumpPoints m (batchIds b) with
      | none => (.panicked "key not found", [readEv])
      | some pts =>
          let up := upsert_retry_go upsertNode pts (upsertOk b) UPDATE_RETRIES 0
          (up.1, readEv :: up.2)

/-- The nodes of the read events of a trace, in order. -/
def readNodes (evs : List TouchEv) : List Nat :=
  evs.filterMap (fun ev => match ev with | .read n _ => some n | _ => none)

/-- The nodes of the upsert events of a trace, in order. -/
def upsertNodes (evs : List TouchEv) : List Nat :=
  evs.filterMap (fun ev => match ev with | .upsertAttempt n _ => some n | _ => none)

end PayloadCounters

namespace PointConsistency

/-! ## `src/tests/point-consistency-test/src/main.rs` -/

/-- Embeds `HOSTS.len()`: three nodes are configured (line 27). -/
def HOSTS_LEN : Nat := 3

/-- One `RetrievedPoint` as compared by `check_point_consistency`: its
numeric id (`point_num`), and its `vectors` and `payload` fields, which the
code only ever compares for equality, abstracted as natural numbers. -/
structure RPoint where
  id : Nat
  vectors : Nat
  payload : Nat
deriving Repr, DecidableEq

/-- The inner loop over one adjacent node pair (lines 175-215):
`points[0].iter().zip(points[1].iter())` — truncating to the shorter list —
panics on the first position whose ids differ (lines 177-183), otherwise
counts the positions with differing `vectors` and differing `payload`
(lines 186-209). -/
def check_pair : List RPoint → List RPoint → RunResult String (Nat × Nat)
  | [], _ => .ok (0, 0)
  | _, [] => .ok (0, 0)
  | a :: as', b :: bs' =>
      if a.id ≠ b.id then
        .panicked ("point ids are not equal: " ++ toString a.id ++ ", " ++
          toString b.id)
      else
        match check_pair as' bs' with
        | .ok (v, p) =>
            .ok ((if a.vectors ≠ b.vectors then 1 else 0) + v,
              (if a.payload ≠ b.payload then 1 else 0) + p)
        | other => other

/-- The loop over the adjacent pairs (lines 166-216): each pair in order,
short-circuiting on the first panic; the `ok` value collects the
`(wrong_vector_count, wrong_payload_count)` tallies per pair. -/
def check_pairs : List (List RPoint × List RPoint) →
    RunResult String (List (Nat × Nat))
  | [] => .ok []
  | (l1, l2) :: rest =>
      match check_pair l1 l2 with
      | .ok c =>
          match check_pairs rest with
          | .ok cs => .ok (c :: cs)
          | .err e => .err e
          | .panicked m => .panicked m
      | .err e => .err e
      | .panicked m => .panicked m

/-- The adjacent node pairs `points.windows(2)` zipped against the two
per-pair counters (`vec![0; HOSTS.len() - 1]`), which truncates to
`HOSTS_LEN - 1` pairs; for the three fetchers of `main` the input has
length 3 and nothing is truncated. -/
def adjacentPairs (points : List (List RPoint)) : List (List RPoint × List RPoint) :=
  (points.zip points.tail).take (HOSTS_LEN - 1)

/-- Embeds `check_point_consistency(points)` (lines 161-236). -/
def check_point_consistency (points : List (List RPoint)) :
    RunResult String (List (Nat × Nat)) :=
  check_pairs (adjacentPairs points)

/-- The per-pair mismatch tallies the code computes when no panic occurs:
for the zipped positions of the two lists, how many have differing
`vectors` and how many have differing `payload`. -/
def mismatchCounts (l1 l2 : List RPoint) : Nat × Nat :=
  ((l1.zip l2).countP (fun q => q.1.vectors ≠ q.2.vectors),
    (l1.zip l2).countP (fun q => q.1.payload ≠ q.2.payload))

/-- An id mismatch at some zipped position of a pair. -/
def pairHasIdMismatch (l1 l2 : List RPoint) : Prop :=
  ∃ q ∈ l1.zip l2, q.1.id ≠ q.2.id

end PointConsistency

namespace TransferGate

/-! ## The TransferGate protocol of `sweep-points`

A small interleaving model of the two tasks sharing
`transfer_lock: Arc<Mutex<()>>`:

* the transfer injector, `run_transfers` (lines 315-365), whose iteration —
  after node/method selection — runs `drop(transfer_lock.lock().await)`
  (line 345) and then issues the transfer request (lines 349-354);
* the consistency checker, `check_points`, which acquires the lock on the
  first failing cycle (line 258) and holds it until it returns.

The lock is modelled by its owner; an acquire step is enabled only when the
owner is `none`, which is the tokio `Mutex` guarantee.  The injector's
program counter tracks where it is inside one loop iteration. -/

/-- The two tasks that touch the lock. -/
inductive Agent where
  | checker
  | injector
deriving Repr, DecidableEq

/-- The injector's position inside one `run_transfers` iteration:
`selecting` before line 345; `locked` while `transfer_lock.lock().await`'s
guard is alive; `passed` after the guard is dropped but before the
transfer request of lines 349-354 is issued; `requested` after the request
is issued. -/
inductive InjPc where
  | selecting
  | locked
  | passed
  | requested
deriving Repr, DecidableEq

/-- Shared state: the lock's owner and the injector's position.  The
checker's own position is captured by whether it owns the lock. -/
structure GState where
  owner : Option Agent
  inj : InjPc
deriving Repr, DecidableEq

/-- Interleaved small-step semantics of the two tasks. -/
inductive GStep : GState → GState → Prop
  | injAcquire (s : GState) :
      s.owner = none → s.inj = .selecting →
      GStep s { owner := some .injector, inj := .locked }
  | injRelease (s : GState) :
      s.owner = some .injector → s.inj = .locked →
      GStep s { owner := none, inj := .passed }
  | injRequest (s : GState) :
      s.inj = .passed →
      GStep s { s with inj := .requested }
  | injRestart (s : GState) :
      s.inj = .requested →
      GStep s { s with inj := .selecting }
  | chkAcquire (s : GState) :
      s.owner = none →
      GStep s { s with owner := some .checker }
  | chkRelease (s : GState) :
      s.owner = some .checker →
      GStep s { s with owner := none }

/-- Both tasks start outside the lock. -/
def init : GState := { owner := none, inj := .selecting }

/-- Reachability from the initial state. -/
def Reachable (s : GState) : Prop := Relation.ReflTransGen GStep init s

end TransferGate

namespace SweepPoints

/-! ## Lemmas about `rangeFrom` and `strictlySorted` -/

theorem rangeFrom_succ (a n : Nat) : rangeFrom a (n + 1) = a :: rangeFrom (a + 1) n := rfl

theorem length_rangeFrom : ∀ (n a : Nat), (rangeFrom a n).length = n
  | 0, _ => rfl
  | n + 1, a => by simp [rangeFrom, length_rangeFrom n (a + 1)]

theorem getLastD_rangeFrom : ∀ (n a d : Nat), (rangeFrom a (n + 1)).getLastD d = a + n
  | 0, _, _ => rfl
  | n + 1, a, d => by
      rw [rangeFrom_succ, List.getLastD_cons, getLastD_rangeFrom n (a + 1) a]
      omega

theorem strictlySorted_rangeFrom : ∀ (n a : Nat), strictlySorted (rangeFrom a n) = true
  | 0, _ => rfl
  | 1, _ => rfl
  | n + 2, a => by
      have ih : strictlySorted ((a + 1) :: rangeFrom (a + 2) n) = true :=
        strictlySorted_rangeFrom (n + 1) (a + 1)
      show strictlySorted (a :: (a + 1) :: rangeFrom (a + 2) n) = true
      simp [strictlySorted, ih, Nat.lt_succ_self]

theorem mem_rangeFrom : ∀ (n a b : Nat), b ∈ rangeFrom a n → a ≤ b
  | 0, a, b => by simp [rangeFrom]
  | n + 1, a, b => by
      rw [rangeFrom_succ]
      intro hmem
      rcases List.mem_cons.mp hmem with h1 | h2
      · omega
      · have := mem_rangeFrom n (a + 1) b h2
        omega

theorem sorted_le_rangeFrom : ∀ (n a : Nat), List.Sorted (· ≤ ·) (rangeFrom a n)
  | 0, _ => List.sorted_nil
  | n + 1, a => by
      rw [rangeFrom_succ]
      refine List.sorted_cons.mpr ⟨?_, sorted_le_rangeFrom n (a + 1)⟩
      intro b hb
      have := mem_rangeFrom n (a + 1) b hb
      omega

theorem getLastD_default_irrel (c : Nat) (t : List Nat) (d e : Nat) :
    (c :: t).getLastD d = (c :: t).getLastD e := by
  rw [List.getLastD_cons, List.getLastD_cons]

theorem add_length_le_getLastD : ∀ (t : List Nat) (b : Nat),
    strictlySorted (b :: t) = true → b + t.length ≤ (b :: t).getLastD 0
  | [], b, _ => by simp
  | c :: t, b, h => by
      have hsplit : b < c ∧ strictlySorted (c :: t) = true := by
        simpa [strictlySorted] using h
      have ih := add_length_le_getLastD t c hsplit.2
      rw [List.getLastD_cons, getLastD_default_irrel c t b 0]
      simp only [List.length_cons] at ih ⊢
      omega

theorem eq_rangeFrom_of_bounds : ∀ (t : List Nat) (a : Nat),
    strictlySorted (a :: t) = true →
    (a :: t).getLastD 0 + 1 = a + (a :: t).length →
    a :: t = rangeFrom a (t.length + 1)
  | [], a, _, _ => by simp [rangeFrom]
  | c :: t, a, hs, hl => by
      have hsplit : a < c ∧ strictlySorted (c :: t) = true := by
        simpa [strictlySorted] using hs
      have hub := add_length_le_getLastD t c hsplit.2
      have hL : (a :: c :: t).getLastD 0 = (c :: t).getLastD 0 := by
        rw [List.getLastD_cons]
        exact getLastD_default_irrel c t a 0
      rw [hL] at hl
      simp only [List.length_cons] at hl hub ⊢
      have hc : c = a + 1 := by omega
      have hl2 : (c :: t).getLastD 0 + 1 = c + (c :: t).length := by
        simp only [List.length_cons]
        omega
      have ih := eq_rangeFrom_of_bounds t c hsplit.2 hl2
      rw [rangeFrom_succ, ← hc, ← ih]

/-! ## C1: `check_points_on_peer` against the expected window -/

theorem check_sorted_ids_ok_iff (s : Nat) (ids : List Nat) :
    check_sorted_ids s ids = .ok () ↔ ids = windowList s := by
  have hP : POINT_COUNT = 200 := rfl
  constructor
  · intro h
    cases ids with
    | nil => simp [check_sorted_ids] at h
    | cons first rest =>
      simp only [check_sorted_ids] at h
      split_ifs at h with h1 h2
      · push_neg at h2
        obtain ⟨e1, e2, e3⟩ := h2
        simp only [List.length_cons] at e3
        have hb : (first :: rest).getLastD 0 + 1 = first + (first :: rest).length := by
          simp only [List.length_cons]
          rw [e2, e1]
          omega
        have heq := eq_rangeFrom_of_bounds rest first h1 hb
        have hn : rest.length + 1 = POINT_COUNT := by omega
        rw [windowList, ← e1, ← hn]
        exact heq
  · rintro rfl
    have hw : windowList s = s :: rangeFrom (s + 1) 199 := rfl
    have h1 : strictlySorted (s :: rangeFrom (s + 1) 199) = true := by
      have := strictlySorted_rangeFrom 200 s
      rwa [show rangeFrom s 200 = s :: rangeFrom (s + 1) 199 from rfl] at this
    have h2 : (s :: rangeFrom (s + 1) 199).getLastD 0 = s + POINT_COUNT - 1 := by
      have := getLastD_rangeFrom 199 s 0
      rw [show rangeFrom s (199 + 1) = s :: rangeFrom (s + 1) 199 from rfl] at this
      rw [this, hP]
      omega
    have h3 : (s :: rangeFrom (s + 1) 199).length = POINT_COUNT := by
      have := length_rangeFrom 200 s
      rw [show rangeFrom s 200 = s :: rangeFrom (s + 1) 199 from rfl] at this
      rw [this, hP]
    have hcond : ¬(s ≠ s ∨ (s :: rangeFrom (s + 1) 199).getLastD 0 ≠ s + POINT_COUNT - 1 ∨
        (s :: rangeFrom (s + 1) 199).length ≠ POINT_COUNT) := by
      push_neg
      exact ⟨rfl, h2, h3⟩
    rw [hw]
    simp only [check_sorted_ids]
    rw [if_pos h1, if_neg hcond]

/-- C1 (amended): `check_points_on_peer` returns `Ok` exactly when the
fetched id multiset — not merely its distinct contents — is the half-open
window `[sweep_start, sweep_start + POINT_COUNT)`: `Ok` holds iff the
fetched list is a permutation of the window, so an `Ok` implies no
duplicates, no missing ids and no extra ids. -/
theorem c1_sweep_check_ok_iff_window (fetched : List Nat) (s : Nat) :
    check_points_on_peer fetched s = .ok () ↔ fetched.Perm (windowList s) := by
  rw [check_points_on_peer, check_sorted_ids_ok_iff]
  constructor
  · intro h
    have hp : (sortIds fetched).Perm fetched := List.perm_insertionSort _ fetched
    rw [h] at hp
    exact hp.symm
  · intro h
    exact List.eq_of_perm_of_sorted ((List.perm_insertionSort _ fetched).trans h)
      (List.sorted_insertionSort _ fetched) (sorted_le_rangeFrom _ _)

/-- Witness for C1: the exact window itself passes the check. -/
theorem c1_sweep_check_ok_iff_window_witness :
    check_points_on_peer (windowList 0) 0 = .ok () :=
  (c1_sweep_check_ok_iff_window (windowList 0) 0).mpr (List.Perm.refl _)

/-- C1 counterexample: the fetched list `[0, 0, 1, ..., 199]` has
distinct sorted contents exactly the window `[0, 200)`, yet
`check_points_on_peer` does not return `Ok` for it (the duplicate trips the
`debug_assert!`), refuting the claim's "Ok is returned if and only if the
list's distinct sorted contents are precisely the expected window". -/
theorem c1_distinct_window_counterexample :
    specDistinctSorted (0 :: List.range 200) = windowList 0 ∧
    check_points_on_peer (0 :: List.range 200) 0 ≠ .ok () := by
  constructor
  · decide
  · decide

/-! ## C8: `format_ranges` -/

theorem format_ranges_go_nonadj : ∀ (t : List Nat) (s e : Nat) (acc : List String),
    (∀ x ∈ t.head?, e ≠ x) → nonAdjacent t = true →
    format_ranges_go t (some (s, e)) acc =
      acc ++ [range_repr s e] ++ t.map (fun i => range_repr i (i + 1))
  | [], s, e, acc, _, _ => by simp [format_ranges_go]
  | hd :: t, s, e, acc, hhd, hadj => by
      have he : ¬(e = hd) := hhd hd (by simp)
      rw [format_ranges_go, if_neg he]
      have hpre : ∀ x ∈ t.head?, hd + 1 ≠ x := by
        intro x hx
        cases t with
        | nil => simp at hx
        | cons y t2 =>
          simp only [List.head?_cons, Option.mem_def, Option.some.injEq] at hx
          have hy : hd + 1 ≠ y ∧ nonAdjacent (y :: t2) = true := by
            simpa [nonAdjacent] using hadj
          rw [← hx]
          exact hy.1
      have hadj2 : nonAdjacent t = true := by
        cases t with
        | nil => rfl
        | cons y t2 =>
          have : hd + 1 ≠ y ∧ nonAdjacent (y :: t2) = true := by
            simpa [nonAdjacent] using hadj
          exact this.2
      rw [format_ranges_go_nonadj t hd (hd + 1) (acc ++ [range_repr s e]) hpre hadj2]
      simp

/-- C8: the Range Formatter maps `[3,4,5,9,10,15]` to exactly
`"3..6,9..11,15..16"`, maps the empty list to the empty string, and renders
every element of a list with no adjacent successors as its own width-1
half-open range. -/
theorem c8_format_ranges_spec :
    format_ranges [3, 4, 5, 9, 10, 15] = "3..6,9..11,15..16" ∧
    format_ranges [] = "" ∧
    ∀ ids : List Nat, nonAdjacent ids = true →
      format_ranges ids =
        String.intercalate "," (ids.map (fun i => range_repr i (i + 1))) := by
  refine ⟨by decide, rfl, ?_⟩
  intro ids h
  cases ids with
  | nil => rfl
  | cons hd t =>
    have hhd : ∀ x ∈ t.head?, hd + 1 ≠ x := by
      intro x hx
      cases t with
      | nil => simp at hx
      | cons y t2 =>
        simp only [List.head?_cons, Option.mem_def, Option.some.injEq] at hx
        have hy : hd + 1 ≠ y ∧ nonAdjacent (y :: t2) = true := by
          simpa [nonAdjacent] using h
        rw [← hx]
        exact hy.1
    have hadj : nonAdjacent t = true := by
      cases t with
      | nil => rfl
      | cons y t2 =>
        have : hd + 1 ≠ y ∧ nonAdjacent (y :: t2) = true := by
          simpa [nonAdjacent] using h
        exact this.2
    rw [format_ranges, format_ranges_go,
      format_ranges_go_nonadj t hd (hd + 1) [] hhd hadj]
    simp

/-- Witness for C8's universally quantified part at the concrete
non-adjacent list `[1, 5, 7]`. -/
theorem c8_format_ranges_spec_witness :
    nonAdjacent [1, 5, 7] = true ∧
    format_ranges [1, 5, 7] =
      String.intercalate "," ([1, 5, 7].map (fun i => range_repr i (i + 1))) :=
  ⟨by decide, c8_format_ranges_spec.2.2 [1, 5, 7] (by decide)⟩

end SweepPoints

namespace SweepPoints

/-! ## C2 and C10: the `check_points` retry loop -/

theorem check_points_go_gate (cycles : Nat → List (Option String)) :
    ∀ (rem cycle : Nat) (errors : List String) (guard : Option Nat) (events : List Nat),
    (guard = none → events = []) →
    (∀ g, guard = some g → events = [g] ∧ cycleFails (cycles g) = true ∧
      ∀ j < g, cycleFails (cycles j) = false) →
    (guard = none → ∀ j < cycle, cycleFails (cycles j) = false) →
    (check_points_go cycles rem cycle errors guard events).lockEvents.length ≤ 1 ∧
    ((check_points_go cycles rem cycle errors guard events).heldAtReturn = true ↔
      (check_points_go cycles rem cycle errors guard events).lockEvents ≠ []) ∧
    (∀ i, (check_points_go cycles rem cycle errors guard events).lockEvents = [i] →
      cycleFails (cycles i) = true ∧ ∀ j < i, cycleFails (cycles j) = false)
  | 0, cycle, errors, guard, events, h1, h2, _h3 => by
      cases guard with
      | none =>
        have he := h1 rfl
        subst he
        simp [check_points_go]
      | some g =>
        obtain ⟨he, hf, hprev⟩ := h2 g rfl
        subst he
        refine ⟨by simp [check_points_go], by simp [check_points_go], ?_⟩
        intro i hi
        simp [check_points_go] at hi
        subst hi
        exact ⟨hf, hprev⟩
  | rem + 1, cycle, errors, guard, events, h1, h2, h3 => by
      by_cases hE : ((cycles cycle).filterMap id).isEmpty = true
      · cases guard with
        | none =>
          have he := h1 rfl
          subst he
          simp [check_points_go, hE]
        | some g =>
          obtain ⟨he, hf, hprev⟩ := h2 g rfl
          subst he
          refine ⟨by simp [check_points_go, hE], by simp [check_points_go, hE], ?_⟩
          intro i hi
          simp [check_points_go, hE] at hi
          subst hi
          exact ⟨hf, hprev⟩
      · have hfail : cycleFails (cycles cycle) = true := by
          simp [cycleFails] at hE ⊢
          exact hE
        cases guard with
        | none =>
          have he := h1 rfl
          subst he
          have hstep : check_points_go cycles (rem + 1) cycle errors none [] =
              check_points_go cycles rem (cycle + 1) ((cycles cycle).filterMap id)
                (some cycle) [cycle] := by
            simp [check_points_go, hE]
          rw [hstep]
          exact check_points_go_gate cycles rem (cycle + 1) _ (some cycle) [cycle]
            (by intro h; cases h)
            (by
              intro g hg
              injection hg with hg
              subst hg
              exact ⟨rfl, hfail, h3 rfl⟩)
            (by intro h; cases h)
        | some g =>
          have hstep : check_points_go cycles (rem + 1) cycle errors (some g) events =
              check_points_go cycles rem (cycle + 1) ((cycles cycle).filterMap id)
                (some g) events := by
            simp [check_points_go, hE]
          rw [hstep]
          exact check_points_go_gate cycles rem (cycle + 1) _ (some g) events
            (by intro h; cases h) h2 (by intro h; cases h)

/-- C2: in one invocation of `check_points`, the transfer lock is
acquired at most once; it is still held at return exactly when it was ever
acquired (it is released only by returning); an acquisition happens at the
first check cycle that observed a failure; and when the first cycle
observes no failure (so the loop exits at its first success without ever
failing) the lock is never touched. -/
theorem c2_transfer_gate_discipline (attempts : Nat) (cycles : Nat → List (Option String)) :
    (check_points attempts cycles).lockEvents.length ≤ 1 ∧
    ((check_points attempts cycles).heldAtReturn = true ↔
      (check_points attempts cycles).lockEvents ≠ []) ∧
    (∀ i, (check_points attempts cycles).lockEvents = [i] →
      cycleFails (cycles i) = true ∧ ∀ j < i, cycleFails (cycles j) = false) ∧
    (cycleFails (cycles 0) = false → (check_points attempts cycles).lockEvents = []) := by
  have hmain := check_points_go_gate cycles attempts 0 [] none []
    (fun _ => rfl) (by intro g hg; cases hg) (by intro _ j hj; omega)
  refine ⟨hmain.1, hmain.2.1, hmain.2.2, ?_⟩
  intro hclean
  have hE : ((cycles 0).filterMap id).isEmpty = true := by
    simpa [cycleFails] using hclean
  cases attempts with
  | zero => simp [check_points, check_points_go]
  | succ n => simp [check_points, check_points_go, hE]

/-- Witness for C2: with a failure in every cycle the lock is taken at
cycle 0 and still held at return; with no failure at the first cycle it is
never taken. -/
theorem c2_transfer_gate_discipline_witness :
    ((check_points 2 (fun _ => [some "e"])).lockEvents = [0] ∧
      cycleFails ((fun _ => [some "e"]) 0) = true) ∧
    (cycleFails ((fun _ => [none]) 0) = false ∧
      (check_points 2 (fun _ => [none])).lockEvents = []) :=
  ⟨⟨by decide, ((c2_transfer_gate_discipline 2 (fun _ => [some "e"])).2.2.1 0 (by decide)).1⟩,
    ⟨by decide, (c2_transfer_gate_discipline 2 (fun _ => [none])).2.2.2 (by decide)⟩⟩

theorem check_points_go_err (cycles : Nat → List (Option String)) :
    ∀ (rem cycle : Nat) (errors : List String) (guard : Option Nat) (events : List Nat),
    0 < rem → (∀ k < rem, cycleFails (cycles (cycle + k)) = true) →
    (check_points_go cycles rem cycle errors guard events).result =
      .err (String.intercalate "\n" ((cycles (cycle + rem - 1)).filterMap id))
  | 0, _, _, _, _, h0, _ => absurd h0 (by omega)
  | rem + 1, cycle, errors, guard, events, _, hall => by
      have hfail : cycleFails (cycles cycle) = true := by
        have := hall 0 (by omega)
        simpa using this
      have hE : ((cycles cycle).filterMap id).isEmpty = false := by
        simpa [cycleFails] using hfail
      cases rem with
      | zero =>
        cases guard with
        | none => simp [check_points_go, hE]
        | some g => simp [check_points_go, hE]
      | succ r =>
        have ih := fun g e => check_points_go_err cycles (r + 1) (cycle + 1)
          ((cycles cycle).filterMap id) g e (by omega)
          (by
            intro k hk
            have := hall (k + 1) (by omega)
            rw [show cycle + 1 + k = cycle + (k + 1) from by omega]
            exact this)
        cases guard with
        | none =>
          have hstep : check_points_go cycles (r + 1 + 1) cycle errors none events =
              check_points_go cycles (r + 1) (cycle + 1) ((cycles cycle).filterMap id)
                (some cycle) (cycle :: events) := by
            simp [check_points_go, hE]
          rw [hstep, show cycle + (r + 1 + 1) - 1 = cycle + 1 + (r + 1) - 1 from by omega]
          exact ih (some cycle) (cycle :: events)
        | some g =>
          have hstep : check_points_go cycles (r + 1 + 1) cycle errors (some g) events =
              check_points_go cycles (r + 1) (cycle + 1) ((cycles cycle).filterMap id)
                (some g) events := by
            simp [check_points_go, hE]
          rw [hstep, show cycle + (r + 1 + 1) - 1 = cycle + 1 + (r + 1) - 1 from by omega]
          exact ih (some g) events

/-- C10: when every one of the `attempts` check cycles observes at
least one per-node failure, `check_points` returns an error assembled from
exactly the failure lines of the final cycle — `errors` is cleared at every
cycle start, so earlier cycles' failures never reach the terminal report. -/
theorem c10_terminal_report_last_cycle (attempts : Nat)
    (cycles : Nat → List (Option String)) (h0 : 0 < attempts)
    (hall : ∀ c < attempts, cycleFails (cycles c) = true) :
    (check_points attempts cycles).result =
      .err (String.intercalate "\n" ((cycles (attempts - 1)).filterMap id)) := by
  have := check_points_go_err cycles attempts 0 [] none [] h0
    (by intro k hk; simpa using hall k hk)
  simpa using this

/-- Witness for C10: two cycles, every cycle failing with a
cycle-numbered message — the report holds only the second cycle's line. -/
theorem c10_terminal_report_last_cycle_witness :
    0 < 2 ∧ (∀ c < 2, cycleFails ((fun c => [some (toString c)]) c) = true) ∧
    (check_points 2 (fun c => [some (toString c)])).result =
      .err (String.intercalate "\n" (((fun c => [some (toString c)]) 1).filterMap id)) :=
  ⟨by decide, by decide,
    c10_terminal_report_last_cycle 2 (fun c => [some (toString c)]) (by decide) (by decide)⟩

end SweepPoints

namespace SweepPoints

/-! ## C5: the per-batch mutation retry loop -/

theorem retry_go_all_fail (results : Nat → Bool) (hall : ∀ i, results i = false) :
    ∀ (rem i : Nat), 0 < rem →
    retry_go results rem i =
      (.panicked "failed to update points",
        (List.range' i (rem - 1)).flatMap
          (fun k => [.attempt k, .sleep UPDATE_RETRY_INTERVAL_MS]) ++
          [.attempt (i + rem - 1)])
  | 0, _, h0 => absurd h0 (by omega)
  | 1, i, _ => by
      simp [retry_go, hall i]
  | rem + 2, i, _ => by
      have ih := retry_go_all_fail results hall (rem + 1) (i + 1) (by omega)
      rw [retry_go, if_neg (by simp [hall i]), if_pos (by omega)]
      rw [ih]
      rw [show rem + 2 - 1 = rem + 1 from by omega,
        show rem + 1 - 1 = rem from by omega,
        show i + 1 + (rem + 1) - 1 = i + (rem + 2) - 1 from by omega]
      rw [List.range'_succ]
      simp

theorem retry_go_first_success (results : Nat → Bool) :
    ∀ (rem i k : Nat), i ≤ k → k < i + rem →
    (∀ j, i ≤ j → j < k → results j = false) → results k = true →
    retry_go results rem i =
      (.ok (), (List.range' i (k - i)).flatMap
        (fun j => [.attempt j, .sleep UPDATE_RETRY_INTERVAL_MS]) ++ [.attempt k])
  | 0, i, k, hik, hk, _, _ => absurd hk (by omega)
  | rem + 1, i, k, hik, hk, hbefore, hsucc => by
      rcases Nat.eq_or_lt_of_le hik with heq | hlt
      · subst heq
        rw [retry_go, if_pos hsucc]
        simp
      · have hfail : results i = false := hbefore i (by omega) hlt
        have hrem : 0 < rem := by omega
        have ih := retry_go_first_success results rem (i + 1) k (by omega) (by omega)
          (fun j hj1 hj2 => hbefore j (by omega) hj2) hsucc
        rw [retry_go, if_neg (by simp [hfail]), if_pos hrem, ih]
        rw [show k - i = (k - (i + 1)) + 1 from by omega, List.range'_succ]
        simp

/-- C5: for a remote mutation batch whose call always fails, the sweep
workload's retry loop makes exactly `UPDATE_RETRIES` attempts with an
`UPDATE_RETRY_INTERVAL` sleep between consecutive attempts and panics
immediately after the final failed attempt; and an attempt that succeeds
ends the loop with `Ok` after sleeping only between the preceding failed
attempts, with no fatal outcome. -/
theorem c5_mutation_retry_budget (results : Nat → Bool) :
    ((∀ i, results i = false) →
      update_with_retries results =
        (.panicked "failed to update points",
          (List.range' 0 (UPDATE_RETRIES - 1)).flatMap
            (fun k => [.attempt k, .sleep UPDATE_RETRY_INTERVAL_MS]) ++
            [.attempt (UPDATE_RETRIES - 1)])) ∧
    (∀ k < UPDATE_RETRIES, (∀ j < k, results j = false) → results k = true →
      update_with_retries results =
        (.ok (), (List.range' 0 k).flatMap
          (fun j => [.attempt j, .sleep UPDATE_RETRY_INTERVAL_MS]) ++ [.attempt k])) := by
  constructor
  · intro hall
    have := retry_go_all_fail results hall UPDATE_RETRIES 0 (by decide)
    simpa [update_with_retries] using this
  · intro k hk hbefore hsucc
    have := retry_go_first_success results UPDATE_RETRIES 0 k (by omega)
      (by omega) (fun j _ hj2 => hbefore j hj2) hsucc
    simpa [update_with_retries] using this

/-- Witness for C5: an always-failing handle exhausts the 100-attempt
budget and panics; a handle succeeding at attempt 2 stops there with `Ok`. -/
theorem c5_mutation_retry_budget_witness :
    (update_with_retries (fun _ => false) =
      (.panicked "failed to update points",
        (List.range' 0 (UPDATE_RETRIES - 1)).flatMap
          (fun k => [.attempt k, .sleep UPDATE_RETRY_INTERVAL_MS]) ++
          [.attempt (UPDATE_RETRIES - 1)])) ∧
    (update_with_retries (fun i => decide (i = 2)) =
      (.ok (), (List.range' 0 2).flatMap
        (fun j => [.attempt j, .sleep UPDATE_RETRY_INTERVAL_MS]) ++ [.attempt 2])) :=
  ⟨(c5_mutation_retry_budget (fun _ => false)).1 (fun _ => rfl),
    (c5_mutation_retry_budget (fun i => decide (i = 2))).2 2 (by decide)
      (by decide) (by decide)⟩

/-! ## C6: `wait_for_transfer_count` -/

theorem wftc_go_timeout (responses : Nat → Nat) (count : Nat)
    (hmiss : ∀ j ≤ maxPollIndex, responses j ≠ count) :
    ∀ (fuel i : Nat), maxPollIndex + 2 ≤ fuel + i →
    wftc_go responses count fuel i = .panicked "Timeout waiting for transfer count"
  | 0, _, _ => rfl
  | fuel + 1, i, hfi => by
      have hI : COLLECTION_POLL_INTERVAL_MS = 50 := rfl
      have hM : COLLECTION_POLL_MAX_MS = 120000 := rfl
      have hX : maxPollIndex = 2400 := rfl
      by_cases hc : COLLECTION_POLL_INTERVAL_MS * i ≤ COLLECTION_POLL_MAX_MS
      · have hc2 : 50 * i ≤ 120000 := by rw [hI, hM] at hc; exact hc
        have hi : i ≤ maxPollIndex := by omega
        rw [wftc_go, if_pos hc, if_neg (hmiss i hi)]
        exact wftc_go_timeout responses count hmiss fuel (i + 1) (by omega)
      · rw [wftc_go, if_neg hc]

theorem wftc_go_first_hit (responses : Nat → Nat) (count : Nat) :
    ∀ (fuel i k : Nat), i ≤ k → k ≤ maxPollIndex → maxPollIndex + 2 ≤ fuel + i →
    (∀ j, i ≤ j → j < k → responses j ≠ count) → responses k = count →
    wftc_go responses count fuel i = .ok k
  | 0, i, k, hik, hk, hfi, _, _ => by
      have hX : maxPollIndex = 2400 := rfl
      omega
  | fuel + 1, i, k, hik, hk, hfi, hbefore, hhit => by
      have hI : COLLECTION_POLL_INTERVAL_MS = 50 := rfl
      have hM : COLLECTION_POLL_MAX_MS = 120000 := rfl
      have hX : maxPollIndex = 2400 := rfl
      have hc : COLLECTION_POLL_INTERVAL_MS * i ≤ COLLECTION_POLL_MAX_MS := by
        rw [hI, hM]
        omega
      rcases Nat.eq_or_lt_of_le hik with heq | hlt
      · subst heq
        rw [wftc_go, if_pos hc, if_pos hhit]
      · have hfail : responses i ≠ count := hbefore i (by omega) hlt
        rw [wftc_go, if_pos hc, if_neg hfail]
        exact wftc_go_first_hit responses count fuel (i + 1) k (by omega) hk
          (by omega) (fun j hj1 hj2 => hbefore j (by omega) hj2) hhit

/-- C6: `wait_for_transfer_count` returns normally at the first poll
whose topology query reports the target transfer count, and panics — the
timeout is fatal — when no poll admitted by the `COLLECTION_POLL_MAX`
elapsed-time bound (polls `0..=2400`, time advancing by the
`COLLECTION_POLL_INTERVAL` sleep per failed poll) observes the target. -/
theorem c6_wait_for_transfer_count (responses : Nat → Nat) (count : Nat) :
    (∀ k, k ≤ maxPollIndex → responses k = count → (∀ j < k, responses j ≠ count) →
      wait_for_transfer_count responses count = .ok k) ∧
    ((∀ j ≤ maxPollIndex, responses j ≠ count) →
      wait_for_transfer_count responses count =
        .panicked "Timeout waiting for transfer count") := by
  constructor
  · intro k hk hhit hbefore
    exact wftc_go_first_hit responses count (maxPollIndex + 2) 0 k (by omega) hk
      (by omega) (fun j _ hj2 => hbefore j hj2) hhit
  · intro hmiss
    exact wftc_go_timeout responses count hmiss (maxPollIndex + 2) 0 (by omega)

/-- Witness for C6: a query stream reporting the target at once returns
`Ok` at poll 0; a stream never reporting it panics with the timeout
message. -/
theorem c6_wait_for_transfer_count_witness :
    wait_for_transfer_count (fun _ => 1) 1 = .ok 0 ∧
    wait_for_transfer_count (fun _ => 0) 1 =
      .panicked "Timeout waiting for transfer count" :=
  ⟨(c6_wait_for_transfer_count (fun _ => 1) 1).1 0 (by decide) rfl
      (by intro j hj; omega),
    (c6_wait_for_transfer_count (fun _ => 0) 1).2 (by intro j hj; simp)⟩

end SweepPoints

namespace PayloadCounters

/-! ## C3: the scalar counter check -/

/-- The mismatch message of `check_points` (lines 319-322). -/
theorem scanPoints_ok_iff (expected : Int) : ∀ l : List FetchedPoint,
    scanPoints expected l = .ok () ↔ ∀ p ∈ l, p.counter = some expected
  | [] => by simp [scanPoints]
  | p :: rest => by
      cases hc : p.counter with
      | none =>
        simp only [scanPoints, hc]
        constructor
        · intro h
          exact absurd h (by simp)
        · intro h
          exfalso
          have := h p (by simp)
          rw [hc] at this
          cases this
      | some num =>
        by_cases hne : num = expected
        · simp only [scanPoints, hc]
          rw [if_neg (by simp [hne])]
          rw [scanPoints_ok_iff expected rest]
          constructor
          · intro h q hq
            rcases List.mem_cons.mp hq with h1 | h2
            · rw [h1, hc, hne]
            · exact h q h2
          · intro h q hq
            exact h q (List.mem_cons_of_mem p hq)
        · simp only [scanPoints, hc]
          rw [if_pos hne]
          constructor
          · intro h
            exact absurd h (by simp)
          · intro h
            exfalso
            have := h p (by simp)
            rw [hc] at this
            exact hne (by injection this)

theorem scanPoints_append (expected : Int) : ∀ (l1 l2 : List FetchedPoint),
    scanPoints expected (l1 ++ l2) =
      match scanPoints expected l1 with
      | .ok () => scanPoints expected l2
      | other => other
  | [], l2 => by simp [scanPoints]
  | p :: rest, l2 => by
      cases hc : p.counter with
      | none => simp [scanPoints, hc]
      | some num =>
        by_cases hne : num = expected
        · rw [List.cons_append]
          simp only [scanPoints, hc]
          rw [if_neg (by simp [hne]), if_neg (by simp [hne])]
          exact scanPoints_append expected rest l2
        · rw [List.cons_append]
          simp only [scanPoints, hc]
          rw [if_pos hne, if_pos hne]

theorem foldl_scan_acc (responses : Nat → List FetchedPoint) (expected : Int) :
    ∀ (bs : List Nat) (acc : RunResult String Unit),
    bs.foldl (fun acc b =>
      match acc with
      | .ok () => scanPoints expected (responses b)
      | other => other) acc =
    match acc with
    | .ok () => scanPoints expected ((bs.map responses).flatten)
    | other => other
  | [], acc => by
      cases acc with
      | ok v => cases v; simp [scanPoints]
      | err e => rfl
      | panicked m => rfl
  | b :: bs, acc => by
      rw [List.foldl_cons, foldl_scan_acc responses expected bs]
      cases acc with
      | ok v =>
        cases v
        show (match scanPoints expected (responses b) with
          | .ok () => scanPoints expected ((bs.map responses).flatten)
          | other => other) =
          scanPoints expected (((b :: bs).map responses).flatten)
        rw [List.map_cons, List.flatten_cons, scanPoints_append]
      | err e => rfl
      | panicked m => rfl

theorem check_points_eq_scan_flat (responses : Nat → List FetchedPoint) (expected : Int) :
    check_points responses expected = scanPoints expected (allResponsePoints responses) := by
  rw [check_points, allResponsePoints, foldl_scan_acc]

theorem scanPoints_first_mismatch (expected : Int) :
    ∀ (l1 : List FetchedPoint) (p : FetchedPoint) (l2 : List FetchedPoint) (m : Int),
    (∀ q ∈ l1, q.counter = some expected) → p.counter = some m → m ≠ expected →
    scanPoints expected (l1 ++ p :: l2) =
      .err ("PAYLOAD COUNTER MISMATCH: " ++ toString m ++ " != " ++
        toString expected ++ " (point " ++ toString p.id ++ ")")
  | [], p, l2, m, _, hm, hne => by
      simp only [List.nil_append, scanPoints, hm]
      rw [if_pos hne]
  | q :: l1, p, l2, m, hall, hm, hne => by
      have hq : q.counter = some expected := hall q (by simp)
      rw [List.cons_append]
      simp only [scanPoints, hq]
      rw [if_neg (by simp)]
      exact scanPoints_first_mismatch expected l1 p l2 m
        (fun r hr => hall r (List.mem_cons_of_mem q hr)) hm hne

/-- C3 (amended): `check_points` returns `Ok` exactly when every point
the node actually returned across the four batch responses carries the
expected counter — ids the node omits from a response are not checked at
all — and on a mismatch it returns the error naming the first returned
point (in batch order, then response order) whose counter differs. -/
theorem c3_scalar_check (responses : Nat → List FetchedPoint) (expected : Int) :
    (check_points responses expected = .ok () ↔
      ∀ p ∈ allResponsePoints responses, p.counter = some expected) ∧
    (∀ (l1 : List FetchedPoint) (p : FetchedPoint) (l2 : List FetchedPoint) (m : Int),
      allResponsePoints responses = l1 ++ p :: l2 →
      (∀ q ∈ l1, q.counter = some expected) → p.counter = some m → m ≠ expected →
      check_points responses expected =
        .err ("PAYLOAD COUNTER MISMATCH: " ++ toString m ++ " != " ++
          toString expected ++ " (point " ++ toString p.id ++ ")")) := by
  constructor
  · rw [check_points_eq_scan_flat]
    exact scanPoints_ok_iff expected (allResponsePoints responses)
  · intro l1 p l2 m hsplit hall hm hne
    rw [check_points_eq_scan_flat, hsplit]
    exact scanPoints_first_mismatch expected l1 p l2 m hall hm hne

/-- Witness for C3: a full all-`3` response set passes; a response whose
first point carries `5` instead of `3` yields the mismatch error naming
point 0. -/
theorem c3_scalar_check_witness :
    check_points (fun b => (List.range BATCH_SIZE).map
      (fun i => ⟨b * BATCH_SIZE + i, some 3⟩)) 3 = .ok () ∧
    check_points (fun b => [⟨b, some (if b = 0 then 5 else 3)⟩]) 3 =
      .err ("PAYLOAD COUNTER MISMATCH: " ++ toString (5 : Int) ++ " != " ++
        toString (3 : Int) ++ " (point " ++ toString 0 ++ ")") :=
  ⟨(c3_scalar_check (fun b => (List.range BATCH_SIZE).map
        (fun i => ⟨b * BATCH_SIZE + i, some 3⟩)) 3).1.mpr (by decide),
    (c3_scalar_check (fun b => [⟨b, some (if b = 0 then 5 else 3)⟩]) 3).2
      [] ⟨0, some 5⟩ [⟨1, some 3⟩, ⟨2, some 3⟩, ⟨3, some 3⟩] 5
      (by decide) (by decide) (by decide) (by decide)⟩

/-- C3 counterexample: a response set in which the node omits id 0
entirely but reports every other id with the expected counter makes
`check_points` return `Ok`, even though id 0 does not have the expected
counter on that node — refuting "returns Ok only if every ID in
`[0, POINT_COUNT)` has its counter payload field equal to the expected
value". -/
theorem c3_missing_id_counterexample :
    check_points (fun b =>
      if b = 0 then
        (List.range BATCH_SIZE).filterMap
          (fun i => if i = 0 then none else some ⟨i, some 7⟩)
      else
        (List.range BATCH_SIZE).map (fun i => ⟨b * BATCH_SIZE + i, some 7⟩)) 7 = .ok () ∧
    ¬ specIdHasCounter (fun b =>
      if b = 0 then
        (List.range BATCH_SIZE).filterMap
          (fun i => if i = 0 then none else some ⟨i, some 7⟩)
      else
        (List.range BATCH_SIZE).map (fun i => ⟨b * BATCH_SIZE + i, some 7⟩)) 0 7 := by
  constructor
  · decide
  · simp only [specIdHasCounter]
    decide

end PayloadCounters

namespace PayloadCounters

/-! ## C4: `touch_points` node selection and counter increments -/

theorem bumpPoints_of_lookups (m : List (Nat × Int)) : ∀ (ids : List Nat),
    (∀ id ∈ ids, (mapIndex m id).isSome = true) →
    bumpPoints m ids =
      some (ids.map (fun id => (id, (mapIndex m id).getD 0 + 1)))
  | [], _ => rfl
  | id :: ids, hall => by
      have hid : (mapIndex m id).isSome = true := hall id (by simp)
      obtain ⟨c, hc⟩ := Option.isSome_iff_exists.mp hid
      have ih := bumpPoints_of_lookups m ids
        (fun j hj => hall j (List.mem_cons_of_mem id hj))
      show (match mapIndex m id, bumpPoints m ids with
        | some c, some rest => some ((id, c + 1) :: rest)
        | _, _ => none) =
        some ((id :: ids).map (fun id => (id, (mapIndex m id).getD 0 + 1)))
      rw [hc, ih, List.map_cons, hc]
      rfl

theorem upsert_retry_first_ok (node : Nat) (pts : List (Nat × Int))
    (ok : Nat → Bool) (h : ok 0 = true) :
    upsert_retry_go node pts ok UPDATE_RETRIES 0 =
      (.ok (), [.upsertAttempt node pts]) := by
  rw [show UPDATE_RETRIES = 4 + 1 from rfl, upsert_retry_go, if_pos h]

theorem touch_batch_clean (rand : Nat → Nat) (readResp : Nat → List FetchedPoint)
    (upsertOk : Nat → Nat → Bool) (maps : Nat → List (Nat × Int)) (b : Nat)
    (hmap : buildCounterMap (readResp b) = some (maps b))
    (hlook : ∀ id ∈ batchIds b, (mapIndex (maps b) id).isSome = true)
    (hup : upsertOk b 0 = true) :
    touch_batch rand readResp upsertOk b =
      (.ok (), [.read (rand b % HOSTS_LEN) (batchIds b),
        .upsertAttempt (rand b % HOSTS_LEN)
          ((batchIds b).map (fun id => (id, (mapIndex (maps b) id).getD 0 + 1)))]) := by
  rw [touch_batch, hmap]
  dsimp only
  rw [bumpPoints_of_lookups (maps b) (batchIds b) hlook]
  dsimp only
  rw [upsert_retry_first_ok _ _ _ hup]

theorem touch_points_go_clean (rand : Nat → Nat) (readResp : Nat → List FetchedPoint)
    (upsertOk : Nat → Nat → Bool) (maps : Nat → List (Nat × Int)) :
    ∀ (bs : List Nat),
    (∀ b ∈ bs, buildCounterMap (readResp b) = some (maps b)) →
    (∀ b ∈ bs, ∀ id ∈ batchIds b, (mapIndex (maps b) id).isSome = true) →
    (∀ b ∈ bs, upsertOk b 0 = true) →
    touch_points_go rand readResp upsertOk bs =
      (.ok (), bs.flatMap (fun b =>
        [.read (rand b % HOSTS_LEN) (batchIds b),
          .upsertAttempt (rand b % HOSTS_LEN)
            ((batchIds b).map (fun id => (id, (mapIndex (maps b) id).getD 0 + 1)))]))
  | [], _, _, _ => rfl
  | b :: bs, hmap, hlook, hup => by
      have hb := touch_batch_clean rand readResp upsertOk maps b
        (hmap b (by simp)) (hlook b (by simp)) (hup b (by simp))
      have ih := touch_points_go_clean rand readResp upsertOk maps bs
        (fun x hx => hmap x (List.mem_cons_of_mem b hx))
        (fun x hx => hlook x (List.mem_cons_of_mem b hx))
        (fun x hx => hup x (List.mem_cons_of_mem b hx))
      rw [touch_points_go, hb, ih]
      simp

/-- C4 (amended): for every batch of the counter workload, the driver
draws one random node index for the batch, reads the batch's current
per-id counters from that node, and upserts the same ids with
counter = old + 1 through the **same** node — the read node and the upsert
node always coincide; no second, independent node draw is made for the
upsert. -/
theorem c4_touch_points_same_node (rand : Nat → Nat)
    (readResp : Nat → List FetchedPoint) (upsertOk : Nat → Nat → Bool)
    (maps : Nat → List (Nat × Int))
    (hmap : ∀ b < NUM_BATCHES, buildCounterMap (readResp b) = some (maps b))
    (hlook : ∀ b < NUM_BATCHES, ∀ id ∈ batchIds b, (mapIndex (maps b) id).isSome = true)
    (hup : ∀ b < NUM_BATCHES, upsertOk b 0 = true) :
    touch_points rand readResp upsertOk =
      (.ok (), (List.range NUM_BATCHES).flatMap (fun b =>
        [.read (rand b % HOSTS_LEN) (batchIds b),
          .upsertAttempt (rand b % HOSTS_LEN)
            ((batchIds b).map (fun id => (id, (mapIndex (maps b) id).getD 0 + 1)))])) := by
  rw [touch_points]
  exact touch_points_go_clean rand readResp upsertOk maps (List.range NUM_BATCHES)
    (fun b hb => hmap b (List.mem_range.mp hb))
    (fun b hb => hlook b (List.mem_range.mp hb))
    (fun b hb => hup b (List.mem_range.mp hb))

/-- Witness for C4's amended theorem: a concrete run with counters all 0 —
every batch reads and upserts through the same node, with counters bumped
to 1. -/
theorem c4_touch_points_same_node_witness :
    touch_points (fun k => k)
        (fun b => (batchIds b).map (fun id => ⟨id, some 0⟩)) (fun _ _ => true) =
      (.ok (), (List.range NUM_BATCHES).flatMap (fun b =>
        [.read ((fun k => k) b % HOSTS_LEN) (batchIds b),
          .upsertAttempt ((fun k => k) b % HOSTS_LEN)
            ((batchIds b).map (fun id =>
              (id, (mapIndex ((fun b => (batchIds b).map
                (fun id => (id, (0 : Int)))) b) id).getD 0 + 1)))])) :=
  c4_touch_points_same_node (fun k => k)
    (fun b => (batchIds b).map (fun id => ⟨id, some 0⟩)) (fun _ _ => true)
    (fun b => (batchIds b).map (fun id => (id, (0 : Int))))
    (by decide) (by decide) (fun _ _ => rfl)

/-- C4 counterexample: on a concrete run (identity random stream, all
counters 0, upserts succeeding) every batch's upsert goes to the very node
that served its read — nodes `[0, 1, 2, 0]` for both event kinds — whereas
under the claim's independent-second-draw reading (`spec_touch_batch`) the
first batch's upsert would go to node 1, not node 0.  The code never makes
an independent draw for the upsert, refuting "via an independently
randomly chosen node that may differ from the node used for the read". -/
theorem c4_independent_upsert_node_counterexample :
    readNodes (touch_points (fun k => k)
      (fun b => (batchIds b).map (fun id => ⟨id, some 0⟩)) (fun _ _ => true)).2 =
        [0, 1, 2, 0] ∧
    upsertNodes (touch_points (fun k => k)
      (fun b => (batchIds b).map (fun id => ⟨id, some 0⟩)) (fun _ _ => true)).2 =
        [0, 1, 2, 0] ∧
    upsertNodes (spec_touch_batch (fun k => k)
      (fun b => (batchIds b).map (fun id => ⟨id, some 0⟩)) (fun _ _ => true) 0).2 =
        [1] := by
  refine ⟨?_, ?_, ?_⟩
  · decide
  · decide
  · decide

end PayloadCounters

namespace PointConsistency

/-! ## C7: structural id mismatches are fatal, field mismatches are tallied -/

theorem check_pair_ok : ∀ (l1 l2 : List RPoint),
    (∀ q ∈ l1.zip l2, q.1.id = q.2.id) →
    check_pair l1 l2 = .ok (mismatchCounts l1 l2)
  | [], l2, _ => by cases l2 <;> simp [check_pair, mismatchCounts]
  | a :: as', [], _ => by simp [check_pair, mismatchCounts]
  | a :: as', b :: bs', hids => by
      have hab : a.id = b.id := hids (a, b) (by simp)
      have ih := check_pair_ok as' bs'
        (fun q hq => hids q (List.mem_cons_of_mem (a, b) hq))
      rw [check_pair, if_neg (by simp [hab]), ih]
      by_cases hv : a.vectors = b.vectors <;> by_cases hp : a.payload = b.payload <;>
        simp [mismatchCounts, List.countP_cons, hv, hp, Nat.add_comm]

theorem check_pair_panics : ∀ (l1 l2 : List RPoint),
    pairHasIdMismatch l1 l2 → ∃ msg, check_pair l1 l2 = .panicked msg
  | [], l2, h => by
      exfalso
      obtain ⟨q, hq, _⟩ := h
      simp at hq
  | a :: as', [], h => by
      exfalso
      obtain ⟨q, hq, _⟩ := h
      simp at hq
  | a :: as', b :: bs', h => by
      by_cases hab : a.id = b.id
      · have htail : pairHasIdMismatch as' bs' := by
          obtain ⟨q, hq, hne⟩ := h
          rcases List.mem_cons.mp hq with h1 | h2
          · exfalso
            rw [h1] at hne
            exact hne hab
          · exact ⟨q, h2, hne⟩
        obtain ⟨msg, hmsg⟩ := check_pair_panics as' bs' htail
        refine ⟨msg, ?_⟩
        rw [check_pair, if_neg (by simp [hab]), hmsg]
      · exact ⟨_, by rw [check_pair, if_pos hab]⟩

theorem check_pairs_ok : ∀ (ps : List (List RPoint × List RPoint)),
    (∀ pr ∈ ps, ∀ q ∈ pr.1.zip pr.2, q.1.id = q.2.id) →
    check_pairs ps = .ok (ps.map (fun pr => mismatchCounts pr.1 pr.2))
  | [], _ => rfl
  | (l1, l2) :: ps, hall => by
      have h1 := check_pair_ok l1 l2 (hall (l1, l2) (by simp))
      have ih := check_pairs_ok ps (fun pr hpr => hall pr (List.mem_cons_of_mem _ hpr))
      rw [check_pairs, h1, ih]
      rfl

theorem check_pairs_panics : ∀ (ps : List (List RPoint × List RPoint)),
    (∃ pr ∈ ps, pairHasIdMismatch pr.1 pr.2) →
    ∃ msg, check_pairs ps = .panicked msg
  | [], h => by
      exfalso
      obtain ⟨pr, hpr, _⟩ := h
      simp at hpr
  | (l1, l2) :: ps, h => by
      by_cases hfst : pairHasIdMismatch l1 l2
      · obtain ⟨msg, hmsg⟩ := check_pair_panics l1 l2 hfst
        refine ⟨msg, ?_⟩
        rw [check_pairs, hmsg]
      · have hok : ∀ q ∈ l1.zip l2, q.1.id = q.2.id := by
          intro q hq
          by_contra hne
          exact hfst ⟨q, hq, hne⟩
        obtain ⟨pr, hpr, hmm⟩ := h
        have htail : ∃ pr ∈ ps, pairHasIdMismatch pr.1 pr.2 := by
          rcases List.mem_cons.mp hpr with h1 | h2
          · exfalso
            rw [h1] at hmm
            exact hfst hmm
          · exact ⟨pr, h2, hmm⟩
        obtain ⟨msg, hmsg⟩ := check_pairs_panics ps htail
        refine ⟨msg, ?_⟩
        rw [check_pairs, check_pair_ok l1 l2 hok, hmsg]

/-- C7: when every adjacent node pair returns equal ids at every zipped
cursor position, `check_point_consistency` returns normally with the
per-pair vector/payload mismatch tallies; when any adjacent pair returns
different ids at some position, it panics — a fatal abort with no tally
returned, no non-fatal error value and no retry path. -/
theorem c7_structural_mismatch_fatal (points : List (List RPoint)) :
    ((∀ pr ∈ adjacentPairs points, ∀ q ∈ pr.1.zip pr.2, q.1.id = q.2.id) →
      check_point_consistency points =
        .ok ((adjacentPairs points).map (fun pr => mismatchCounts pr.1 pr.2))) ∧
    ((∃ pr ∈ adjacentPairs points, pairHasIdMismatch pr.1 pr.2) →
      ∃ msg, check_point_consistency points = .panicked msg) := by
  constructor
  · intro h
    rw [check_point_consistency]
    exact check_pairs_ok (adjacentPairs points) h
  · intro h
    rw [check_point_consistency]
    exact check_pairs_panics (adjacentPairs points) h

/-- Witness for C7: three nodes with aligned ids but one divergent payload
yield the non-fatal tallies; three nodes whose first node reports a
different id panic. -/
theorem c7_structural_mismatch_fatal_witness :
    check_point_consistency
        [[⟨0, 0, 0⟩, ⟨1, 0, 0⟩], [⟨0, 0, 1⟩, ⟨1, 0, 0⟩], [⟨0, 0, 1⟩, ⟨1, 0, 0⟩]] =
      .ok ((adjacentPairs
        [[⟨0, 0, 0⟩, ⟨1, 0, 0⟩], [⟨0, 0, 1⟩, ⟨1, 0, 0⟩], [⟨0, 0, 1⟩, ⟨1, 0, 0⟩]]).map
          (fun pr => mismatchCounts pr.1 pr.2)) ∧
    ∃ msg, check_point_consistency [[⟨5, 0, 0⟩], [⟨1, 0, 0⟩], [⟨1, 0, 0⟩]] =
      .panicked msg :=
  ⟨(c7_structural_mismatch_fatal _).1 (by decide),
    (c7_structural_mismatch_fatal _).2
      ⟨([⟨5, 0, 0⟩], [⟨1, 0, 0⟩]), by decide,
        ⟨(⟨5, 0, 0⟩, ⟨1, 0, 0⟩), by decide, by decide⟩⟩⟩

end PointConsistency

namespace TransferGate

/-! ## C9: the TransferGate protocol -/

theorem gate_locked_iff_owner (s : GState) (h : Reachable s) :
    s.inj = .locked ↔ s.owner = some .injector := by
  induction h with
  | refl => simp [init]
  | tail _ hstep ih =>
    cases hstep with
    | injAcquire h1 h2 => simp
    | injRelease h1 h2 => simp
    | injRequest h1 =>
      simp only [h1] at ih
      simp at ih
      simp [ih]
    | injRestart h1 =>
      simp only [h1] at ih
      simp at ih
      simp [ih]
    | chkAcquire h1 =>
      simp only [h1] at ih
      simp at ih
      simp [ih]
    | chkRelease h1 =>
      simp only [h1] at ih
      simp at ih
      simp [ih]

/-- C9 (amended): the TransferGate gives mutual exclusion on the lock
itself — from any reachable state in which the checker holds the gate, no
step can put the injector inside the lock, so an injector acquire blocks
until the checker releases; and the injector holds the gate for zero
intermediate steps: its only enabled step from the locked state is the
immediate release.  The transfer request itself, however, is issued only
after the release, so the hold does not cover it (see the
counterexample). -/
theorem c9_gate_mutual_exclusion :
    (∀ s t : GState, Reachable s → s.owner = some .checker → GStep s t →
      t.inj ≠ .locked) ∧
    (∀ s t : GState, Reachable s → s.inj = .locked → GStep s t →
      t.inj = .passed ∧ t.owner = none) := by
  constructor
  · intro s t hreach hchk hstep
    cases hstep with
    | injAcquire h1 h2 =>
      rw [hchk] at h1
      exact absurd h1 (by simp)
    | injRelease h1 h2 =>
      rw [hchk] at h1
      exact absurd h1 (by simp)
    | injRequest h1 => simp
    | injRestart h1 => simp
    | chkAcquire h1 =>
      intro hc
      have hlk := (gate_locked_iff_owner s hreach).mp hc
      rw [hchk] at hlk
      exact absurd hlk (by simp)
    | chkRelease h1 =>
      intro hc
      have hlk := (gate_locked_iff_owner s hreach).mp hc
      rw [hchk] at hlk
      exact absurd hlk (by simp)
  · intro s t hreach hlock hstep
    have howner : s.owner = some .injector :=
      (gate_locked_iff_owner s hreach).mp hlock
    cases hstep with
    | injAcquire h1 h2 =>
      rw [hlock] at h2
      exact absurd h2 (by simp)
    | injRelease h1 h2 => exact ⟨rfl, rfl⟩
    | injRequest h1 =>
      rw [hlock] at h1
      exact absurd h1 (by simp)
    | injRestart h1 =>
      rw [hlock] at h1
      exact absurd h1 (by simp)
    | chkAcquire h1 =>
      rw [howner] at h1
      exact absurd h1 (by simp)
    | chkRelease h1 =>
      rw [howner] at h1
      exact absurd h1 (by simp)

/-- Witness for C9: from the locked state reached by the injector's
acquire, the only step is the immediate release; and from a reachable
state where the checker holds the gate, the injector's request step cannot
produce a locked injector. -/
theorem c9_gate_mutual_exclusion_witness :
    (({ owner := none, inj := .passed } : GState).inj = .passed ∧
      ({ owner := none, inj := .passed } : GState).owner = none) ∧
    (({ owner := some .checker, inj := .requested } : GState).inj ≠ .locked) :=
  ⟨c9_gate_mutual_exclusion.2 { owner := some .injector, inj := .locked }
      { owner := none, inj := .passed }
      (Relation.ReflTransGen.tail Relation.ReflTransGen.refl
        (GStep.injAcquire init rfl rfl))
      rfl (GStep.injRelease _ rfl rfl),
    c9_gate_mutual_exclusion.1 { owner := some .checker, inj := .passed }
      { owner := some .checker, inj := .requested }
      (Relation.ReflTransGen.tail (Relation.ReflTransGen.tail
        (Relation.ReflTransGen.tail Relation.ReflTransGen.refl
          (GStep.injAcquire init rfl rfl))
        (GStep.injRelease _ rfl rfl))
        (GStep.chkAcquire _ rfl))
      rfl (GStep.injRequest _ rfl)⟩

/-- C9 counterexample: a reachable interleaving in which the injector
acquires and releases the gate, the checker then acquires it (first
observed failure), and the injector — already past the gate — still issues
its transfer request while the checker holds the gate.  This refutes "it
never starts a new transfer while the checker's retry loop holds the
gate": the gate delays only the acquisition, not a request already past
it. -/
theorem c9_request_during_hold_counterexample :
    Reachable { owner := some .checker, inj := .passed } ∧
    GStep { owner := some .checker, inj := .passed }
      { owner := some .checker, inj := .requested } ∧
    ({ owner := some .checker, inj := .passed } : GState).owner = some .checker :=
  ⟨Relation.ReflTransGen.tail (Relation.ReflTransGen.tail
      (Relation.ReflTransGen.tail Relation.ReflTransGen.refl
        (GStep.injAcquire init rfl rfl))
      (GStep.injRelease _ rfl rfl))
      (GStep.chkAcquire _ rfl),
    GStep.injRequest _ rfl, rfl⟩

end TransferGate
